import Mathlib

/-!
# Verification model of Pyrrha-Rules-Decision `GasExposureAnalytics`

Shallow embedding of `src/GasExposureAnalytics.py` (Pyrrha-Platform/Pyrrha-Rules-Decision).

Modelling conventions:
* Sensor timestamps are minute-quantized, so they are modelled as integers
  (minutes since an arbitrary epoch).  Wall-clock times (`pd.Timestamp.now()`,
  `current_timestamp`) are rationals in minutes; `floor(freq='min')` is `Int.floor`.
* Float values flowing through the pandas pipeline are modelled by `PVal`:
  an exact rational, positive infinity (`np.inf`, the range-exceeded dominator
  substituted for negative readings), or NaN (missing data).  The arithmetic
  cases implemented are exactly the ones exercised by the pipeline
  (non-negative finite values, `inf`, `nan`); in particular `inf * 0 = nan`
  and `nan` propagates, as in IEEE-754.  Negative infinity cannot arise
  (negative readings are masked to `+inf` before any arithmetic), so it has
  no constructor; the division cases that would produce it are collapsed to
  `nan` and are never reached by the theorems below.
* `np.round` / `.round` round half to even; modelled exactly on rationals
  (binary floating-point representation artifacts are not modelled).
* pandas `groupby` sorts group keys; this only affects the row/column order
  of the output frame, never any per-firefighter value, so the model keeps
  first-occurrence order of firefighters and the configured order of windows.
-/

/-- A pandas/numpy float cell: finite rational, `+inf`, or NaN. -/
inductive PVal where
  | num : ℚ → PVal
  | inf : PVal
  | nan : PVal
deriving DecidableEq, Repr

namespace PVal

/-- IEEE addition for the cases arising in the pipeline (no `-inf`). -/
def padd : PVal → PVal → PVal
  | num a, num b => num (a + b)
  | num _, inf => inf
  | inf, num _ => inf
  | inf, inf => inf
  | nan, _ => nan
  | _, nan => nan

/-- IEEE multiplication by a (coverage-proportion) value.
`inf * 0 = nan`, `inf * positive = inf`; a NaN factor propagates. -/
def pmul : PVal → PVal → PVal
  | num a, num b => num (a * b)
  | inf, num b => if b = 0 then nan else inf
  | num a, inf => if a = 0 then nan else inf
  | inf, inf => inf
  | nan, _ => nan
  | _, nan => nan

/-- Multiplication by a rational constant (`* 100` in the gauge formula). -/
def pmulq : PVal → ℚ → PVal
  | num a, c => num (a * c)
  | inf, c => if c = 0 then nan else inf
  | nan, _ => nan

/-- Division by a rational constant (`/ limit` in the gauge formula).
`x / 0` follows IEEE for `x ≥ 0` (`inf` for positive `x`, `nan` for `0`);
the negative-divisor branch of `inf` (IEEE `-inf`) is collapsed to `nan`
(unreachable: configured limits are positive). -/
def pdivq : PVal → ℚ → PVal
  | num a, c => if c = 0 then (if a = 0 then nan else inf) else num (a / c)
  | inf, c => if 0 < c then inf else nan
  | nan, _ => nan

/-- Division by a sample count (denominator of a mean, always ≥ 1 at use). -/
def pdivn : PVal → ℕ → PVal
  | num a, n => num (a / n)
  | inf, _ => inf
  | nan, _ => nan

/-- Sum of a list of cells (`foldr` of IEEE addition over `0.0`). -/
def psum (l : List PVal) : PVal := l.foldr padd (num 0)

/-- pandas mean with `skipna=True`: drop NaNs, then sum / count;
the mean of an empty (or all-NaN) column group is NaN. -/
def pmean (l : List PVal) : PVal :=
  let l' := l.filter (· ≠ nan)
  if l' = [] then nan else pdivn (psum l') l'.length

/-- pandas binary max with NaN skipped (`DataFrame.max(axis='columns')`). -/
def pmaxv : PVal → PVal → PVal
  | nan, b => b
  | a, nan => a
  | inf, _ => inf
  | _, inf => inf
  | num a, num b => num (max a b)

/-- pandas row-wise max over a list of cells (NaN when all are NaN/absent). -/
def pmax (l : List PVal) : PVal := l.foldr pmaxv nan

/-- Round half to even on ℤ-valued boundary, as `np.round` does. -/
def rhe (q : ℚ) : ℤ :=
  let f := ⌊q⌋
  let frac := q - f
  if frac < 1 / 2 then f
  else if 1 / 2 < frac then f + 1
  else if f % 2 = 0 then f else f + 1

/-- `np.round(q, d)`: round half to even at `d` decimal places. -/
def roundq (d : ℕ) (q : ℚ) : ℚ := (rhe (q * 10 ^ d) : ℚ) / 10 ^ d

/-- `np.round` on a cell: `round(inf) = inf`, `round(nan) = nan`. -/
def pround (d : ℕ) : PVal → PVal
  | num a => num (roundq d a)
  | inf => inf
  | nan => nan

end PVal

open PVal

/-! ## Data model: configuration and sensor rows -/

/-- One configured time window (`windows_and_limits` entry): its length in
minutes and its per-gas exposure limits (a dict, modelled as an assoc list). -/
structure Window where
  mins : ℕ
  gasLimits : List (String × ℚ)
deriving DecidableEq, Repr

/-- Runtime configuration of the analytics engine (post-validation shape). -/
structure Config where
  windows : List Window
  supportedGases : List String
  yellowWarningPercent : ℚ
  safeRoundingFactors : List (String × ℕ)
  autofillMins : ℕ
deriving DecidableEq, Repr

/-- One sensor reading: a firefighter, a minute-quantized timestamp and one
(raw, possibly `-1`-sentinel) value per supported gas.  Passthrough telemetry
columns (temperature, humidity, battery, ...) are not consumed by the
analytics and are not modelled. -/
structure Row where
  ff : String
  ts : ℤ
  val : String → ℚ

/-- `RANGE_EXCEEDED` reporting constant (line 27 of the source). -/
def RANGE_EXCEEDED : ℚ := -1

/-- `GREEN_RANGE_START`, `RED_RANGE_START`, `RED_RANGE_END` (lines 38-40). -/
def GREEN_RANGE_START : ℚ := 0

def RED_RANGE_START : ℚ := 99

def RED_RANGE_END : ℚ := RED_RANGE_START * 1000

/-- Status LED labels (lines 24-27: `GREEN = 1, YELLOW = 2, RED = 3,
RANGE_EXCEEDED = -1`). -/
inductive Status where
  | green
  | yellow
  | red
  | rangeExceeded
deriving DecidableEq, Repr

/-- `SENSOR_RANGE_PPM` (lines 55-58): hard-coded sensor sensitivity ranges. -/
def SENSOR_RANGE_PPM : String → Option (ℚ × ℚ)
  | "carbon_monoxide" => some (1, 1000)
  | "nitrogen_dioxide" => some (1 / 20, 10)
  | _ => none

/-! ## Per-firefighter helpers for the quantized grid

`_calculate_TWA_and_gauge_for_all_firefighters` first slices the longest
window, masks out-of-range values with `np.inf`, then resamples each
firefighter's rows onto a 1-minute grid (`groupby(ff).resample(1min)
.nearest(limit=1)`, lines 353-358).  The model works cell-wise: `qcell`
gives the quantized value of one (firefighter, minute, gas) cell. -/

/-- Line 340-342: `mask(cond = value < 0, other = np.inf)` — replace the
device's range-exceeded sentinel (any negative reading) with `np.inf`. -/
def maskVal (q : ℚ) : PVal := if q < 0 then .inf else .num q

/-- The rows of one firefighter, in input order. -/
def ffRows (rows : List Row) (f : String) : List Row := rows.filter (·.ff == f)

/-- The (first) sensor row of firefighter `f` at minute `m`.  The upstream
data contract keys rows by `(firefighter, minute)`, so there is at most one. -/
def rowAt (rows : List Row) (f : String) (m : ℤ) : Option Row :=
  (ffRows rows f).find? (·.ts == m)

/-- Resampled cell value for `(f, m, gas)`: the masked direct observation at
`m` when present, else the nearest observation within 1 minute
(`resample(1min).nearest(limit=1)`; on an equidistant tie the earlier
observation is taken — no theorem below depends on the tie direction),
else NaN (gaps wider than 1 minute are not filled). -/
def qcell (rows : List Row) (f : String) (m : ℤ) (g : String) : PVal :=
  match rowAt rows f m with
  | some r => maskVal (r.val g)
  | none =>
    match rowAt rows f (m - 1) with
    | some r => maskVal (r.val g)
    | none =>
      match rowAt rows f (m + 1) with
      | some r => maskVal (r.val g)
      | none => .nan

/-- Earliest observed minute of firefighter `f` in `rows` (for the resample
grid), `none` when `f` has no rows. -/
def ffMinTs (rows : List Row) (f : String) : Option ℤ :=
  ((ffRows rows f).map (·.ts)).min?

/-- Latest observed minute of firefighter `f` in `rows`. -/
def ffMaxTs (rows : List Row) (f : String) : Option ℤ :=
  ((ffRows rows f).map (·.ts)).max?

/-- The 1-minute resample grid of firefighter `f`: every minute from their
earliest to their latest observation in the block (the index produced by
`resample(1min)` within the group), empty when `f` has no rows. -/
def qgrid (rows : List Row) (f : String) : List ℤ :=
  match ffMinTs rows f, ffMaxTs rows f with
  | some lo, some hi =>
    (List.range (hi - lo).toNat.succ).map (fun i : ℕ => lo + (i : ℤ))
  | _, _ => []

/-- Grid minutes of `f` falling in the window slice
`[T - mins + 1, T]` (line 389-391: slicing is inclusive on both ends and the
start is corrected by `+ 1 minute`). -/
def sliceMinutes (rows : List Row) (f : String) (mins : ℕ) (T : ℤ) : List ℤ :=
  (qgrid rows f).filter (fun m => T - mins + 1 ≤ m ∧ m ≤ T)

/-- The invariant assertion of line 398:
`assert(window_df.groupby(FIREFIGHTER_ID_COL).size().max() <= window_mins)` —
for each firefighter, the number of quantized rows in the window slice must
not exceed the window length. -/
def windowAssertHolds (rows : List Row) (f : String) (mins : ℕ) (T : ℤ) : Prop :=
  (sliceMinutes rows f mins T).length ≤ mins

instance (rows : List Row) (f : String) (mins : ℕ) (T : ℤ) :
    Decidable (windowAssertHolds rows f mins T) := by
  unfold windowAssertHolds; infer_instance

/-! ## Coverage spans and the per-window TWA/gauge computation -/

/-- A firefighter's coverage span (`data_start` / `data_end` columns of the
`_FF_TIME_SPANS_CACHE` frame). -/
structure Span where
  dstart : ℤ
  dend : ℤ
deriving DecidableEq, Repr

/-- A per-firefighter coverage table (dataframe indexed by firefighter id). -/
abbrev Coverage := List (String × Span)

/-- Association-list lookup (first matching key, like a unique-index frame). -/
def alookup (c : Coverage) (f : String) : Option Span :=
  (c.find? (·.1 == f)).map (·.2)

/-- Lines 438-445: overlap between the moving window `[T - mins, T]` (note:
`WINDOW_START` has *no* `+1` correction, line 433) and the firefighter's
data span; negative overlap is clamped to zero, and the proportion is the
overlap over the window length, capped at 1. -/
def propQ (s : Span) (mins : ℕ) (T : ℤ) : ℚ :=
  let delta : ℤ := min s.dend T - max s.dstart (T - mins)
  let overlapMins : ℚ := if 0 < delta then (delta : ℚ) else 0
  if overlapMins < mins then overlapMins / mins else 1

/-- The coverage proportion as a pandas cell: a firefighter missing from the
coverage frame yields NaN through index alignment. -/
def proportionOf (cov : Coverage) (f : String) (mins : ℕ) (T : ℤ) : PVal :=
  match alookup cov f with
  | some s => .num (propQ s mins T)
  | none => .nan

/-- A gas's configured safe rounding factor
(`self.SAFE_ROUNDING_FACTORS[gas]`, line 451). -/
def roundingFactorOf (cfg : Config) (g : String) : ℕ :=
  ((cfg.safeRoundingFactors.find? (·.1 == g)).map (·.2)).getD 0

/-- A window's configured limit for a gas
(`float(time_window[GAS_LIMITS_PROPERTY][gas])`, line 461).  A missing entry
would be a Python `KeyError`; the total model defaults it to 0, which no
theorem below relies on. -/
def limitOf (w : Window) (g : String) : ℚ :=
  ((w.gasLimits.find? (·.1 == g)).map (·.2)).getD 0

/-- Lines 412-451: the (rounded, coverage-corrected) TWA cell of firefighter
`f` for gas `g` in window `w` ending at `T`: the mean of the available
quantized samples in the slice, multiplied by the coverage proportion, then
rounded to the gas's safe rounding factor.  A firefighter with no rows in
the slice gets NaN (their row is simply absent from this window's frame and
NaN-filled by the outer merge of line 474). -/
def twaCell (cfg : Config) (rows : List Row) (cov : Coverage) (T : ℤ)
    (w : Window) (g : String) (f : String) : PVal :=
  let meanv := pmean ((sliceMinutes rows f w.mins T).map (fun m => qcell rows f m g))
  pround (roundingFactorOf cfg g) (pmul meanv (proportionOf cov f w.mins T))

/-- Lines 459-463: `Gauge = (TWA * 100 / limit).round(0)` (computed from the
already-rounded TWA). -/
def gaugeCell (cfg : Config) (rows : List Row) (cov : Coverage) (T : ℤ)
    (w : Window) (g : String) (f : String) : PVal :=
  pround 0 (pdivq (pmulq (twaCell cfg rows cov T w g f) 100) (limitOf w g))

/-- All gauge cells of one output row (the `filter(like='_gauge')` columns of
line 486): one per (window, gas).  Windows whose slice is empty contribute
only NaN cells, which the NaN-skipping row max ignores — observationally the
same as the column being absent from the merged frame. -/
def rowGauges (cfg : Config) (rows : List Row) (cov : Coverage) (T : ℤ)
    (f : String) : List PVal :=
  cfg.windows.flatMap (fun w =>
    cfg.supportedGases.map (fun g => gaugeCell cfg rows cov T w g f))

/-- Lines 484-488: `pd.cut` of the row-max gauge over the bins
`[0, yellow-1, 99, 99000, inf]` with `include_lowest=True` and labels
`[GREEN, YELLOW, RED, RANGE_EXCEEDED]`.  A NaN max (no gauge at all) and a
max outside every bin classify as NaN (`none`). -/
def pcut (cfg : Config) : PVal → Option Status
  | .nan => none
  | .inf => some .rangeExceeded
  | .num q =>
    if q < GREEN_RANGE_START then none
    else if q ≤ cfg.yellowWarningPercent - 1 then some .green
    else if q ≤ RED_RANGE_START then some .yellow
    else if q ≤ RED_RANGE_END then some .red
    else some .rangeExceeded

/-- Lines 490-496: final substitution of the arithmetic dominator `np.inf`
by the `RANGE_EXCEEDED` reporting constant (−1) in every gas column; NaN
stays NaN (absent ≠ range-exceeded). -/
def finalize : PVal → PVal
  | .inf => .num RANGE_EXCEEDED
  | v => v

/-! ## The analytic table for one minute -/

/-- TWA and gauge columns contributed by one window to one output row. -/
structure WindowCells where
  mins : ℕ
  twas : List (String × PVal)
  gauges : List (String × PVal)
deriving DecidableEq, Repr

/-- One row of the final analytic frame (`everything_for_1_min_df`), keyed by
firefighter (all rows share the timestamp key): the per-window TWA/gauge
cells after the `np.inf → RANGE_EXCEEDED` substitution, and the overall
status LED computed (lines 484-488) *before* that substitution. -/
structure ResultRow where
  ff : String
  cells : List WindowCells
  statusLED : Option Status
deriving DecidableEq, Repr

/-- The output row of one firefighter. -/
def resultRow (cfg : Config) (rows : List Row) (cov : Coverage) (T : ℤ)
    (f : String) : ResultRow :=
  { ff := f
    cells := cfg.windows.map (fun w =>
      { mins := w.mins
        twas := cfg.supportedGases.map
          (fun g => (g, finalize (twaCell cfg rows cov T w g f)))
        gauges := cfg.supportedGases.map
          (fun g => (g, finalize (gaugeCell cfg rows cov T w g f))) })
    statusLED := pcut cfg (pmax (rowGauges cfg rows cov T f)) }

/-- The distinct firefighters appearing in the block, in first-occurrence
order (pandas sorts group keys, which only permutes output rows). -/
def ffList (rows : List Row) : List String := (rows.map (·.ff)).dedup

/-- `_calculate_TWA_and_gauge_for_all_firefighters` (lines 317-502): the
whole analytic frame for minute `T`, one row per firefighter in the block. -/
def calcTable (cfg : Config) (rows : List Row) (cov : Coverage) (T : ℤ) :
    List ResultRow :=
  (ffList rows).map (resultRow cfg rows cov T)

/-! ## Block retrieval and the coverage cache (`_get_block_of_sensor_readings`) -/

/-- The longest configured window length
(`max([window['mins'] for window in self.WINDOWS_AND_LIMITS])`, line 241). -/
def longestWindowMins (cfg : Config) : ℕ :=
  (cfg.windows.map (·.mins)).foldr max 0

/-- The observed time span of each firefighter in the current block
(`groupby(ff)[ts].agg(['min','max'])`, lines 281-284). -/
def blockSpans (rows : List Row) : Coverage :=
  (ffList rows).map (fun f =>
    (f, { dstart := (ffMinTs rows f).getD 0, dend := (ffMaxTs rows f).getD 0 }))

/-- One cache entry updated against the block's spans: `fmin` of the
`data_start`s and `fmax` of the `data_end`s (a firefighter present in the
cache only keeps the cached values, as `np.fmin`/`np.fmax` ignore a missing
NaN operand). -/
def updEntry (block : Coverage) (e : String × Span) : String × Span :=
  match alookup block e.1 with
  | some t => (e.1, { dstart := min e.2.dstart t.dstart,
                      dend := max e.2.dend t.dend })
  | none => e

/-- Lines 285-295: merge the block's spans into the cache —
`fmin`/`fmax` per cached firefighter, outer-joined on the firefighter id so
firefighters appearing only in the block are appended with their block span. -/
def mergeSpans (cache : Coverage) (block : Coverage) : Coverage :=
  cache.map (updEntry block)
  ++ block.filter (fun e => alookup cache e.1 = none)

/-- Line 305: the *derived copy* handed to the aggregation step, with every
`data_end` advanced by `AUTOFILL_MINS`. -/
def addAutofill (n : ℕ) (c : Coverage) : Coverage :=
  c.map (fun e => (e.1, { e.2 with dend := e.2.dend + n }))

/-- The engine's only cross-tick state: `self._FF_TIME_SPANS_CACHE`
(`None` before the first non-empty block and after every empty block). -/
structure EngineState where
  cache : Option Coverage
deriving DecidableEq, Repr

/-- The rows returned by the range query for the block ending at `blockEnd`:
every stored row with timestamp in `[blockEnd - longest + 1, blockEnd]`
(lines 240-260; both the SQL `between` and the pandas slice are inclusive,
hence the `+ 1` start correction). -/
def blockRowsOf (cfg : Config) (allRows : List Row) (blockEnd : ℤ) : List Row :=
  allRows.filter (fun r =>
    blockEnd - longestWindowMins cfg + 1 ≤ r.ts ∧ r.ts ≤ blockEnd)

/-- `_get_block_of_sensor_readings` (lines 235-307): returns the block's
rows and the autofill-buffered coverage copy, and updates the cache —
resetting it to `None` exactly when the block is empty. -/
def getBlock (cfg : Config) (st : EngineState) (allRows : List Row)
    (blockEnd : ℤ) : List Row × Option Coverage × EngineState :=
  let br := blockRowsOf cfg allRows blockEnd
  if br.isEmpty then
    (br, none, { cache := none })
  else
    let cache' :=
      match st.cache with
      | none => blockSpans br
      | some c => mergeSpans c (blockSpans br)
    (br, some (addAutofill cfg.autofillMins cache'), { cache := some cache' })

/-! ## The per-tick driver (`run_analytics`) -/

/-- `run_analytics` (lines 509-543) for an explicitly supplied timestamp:
computes the analysis minute `floor(now, 1min) - 1`, fetches the block,
stops with no output and no persistence call when the block is empty, else
computes the analytic frame and appends it to the analytics table when
`commit` is set.  Returns (new state, optional frame, persisted frames). -/
def runAnalytics (cfg : Config) (st : EngineState) (allRows : List Row)
    (currentTimestamp : ℚ) (commit : Bool) :
    EngineState × Option (List ResultRow) × List (List ResultRow) :=
  let g := getBlock cfg st allRows (⌊currentTimestamp⌋ - 1)
  if g.1.isEmpty then (g.2.2, none, [])
  else
    let table := calcTable cfg g.1 (g.2.1.getD []) (⌊currentTimestamp⌋ - 1)
    (g.2.2, some table, if commit then [table] else [])

/-- The engine object as constructed at class-definition time.  In Python,
the default `current_timestamp=pd.Timestamp.now()` of `run_analytics`
(line 509) is evaluated *once*, when the `def` statement executes — so the
captured wall-clock time of that moment, not of the call, is the default. -/
structure AnalyticsEngine where
  defaultTimestamp : ℚ
deriving DecidableEq, Repr

/-- A call to `run_analytics` that may omit the timestamp argument: an
omitted argument uses the default captured at definition time — the
wall-clock time at which the call itself happens does not enter anywhere. -/
def runAnalyticsCall (eng : AnalyticsEngine) (cfg : Config) (st : EngineState)
    (allRows : List Row) (tsArg : Option ℚ) (commit : Bool) :
    EngineState × Option (List ResultRow) × List (List ResultRow) :=
  runAnalytics cfg st allRows (tsArg.getD eng.defaultTimestamp) commit

/-- The analysis minute a call computes results for (line 516). -/
def analysisMinuteOfCall (eng : AnalyticsEngine) (tsArg : Option ℚ) : ℤ :=
  ⌊tsArg.getD eng.defaultTimestamp⌋ - 1

/-! ## General lemmas about the quantized grid -/

theorem zmin?_le {l : List ℤ} {a b : ℤ} (h : l.min? = some a) (hb : b ∈ l) :
    a ≤ b := by
  rw [@List.min?_eq_some_iff ℤ _ _ _ ⟨fun h1 h2 => le_antisymm h1 h2⟩ le_refl
    min_choice (fun _ _ _ => le_min_iff)] at h
  exact h.2 b hb

theorem zle_max? {l : List ℤ} {a b : ℤ} (h : l.max? = some a) (hb : b ∈ l) :
    b ≤ a := by
  rw [@List.max?_eq_some_iff ℤ _ _ _ ⟨fun h1 h2 => le_antisymm h1 h2⟩ le_refl
    max_choice (fun _ _ _ => max_le_iff)] at h
  exact h.2 b hb

/-- Every observed minute of a firefighter lies on their resample grid. -/
theorem ts_mem_qgrid {rows : List Row} {f : String} {r : Row}
    (hr : r ∈ ffRows rows f) : r.ts ∈ qgrid rows f := by
  have hm : r.ts ∈ (ffRows rows f).map (·.ts) := List.mem_map_of_mem _ hr
  unfold qgrid ffMinTs ffMaxTs
  cases hmin : ((ffRows rows f).map (·.ts)).min? with
  | none =>
    rw [List.min?_eq_none_iff] at hmin
    simp [hmin] at hm
  | some lo =>
    cases hmax : ((ffRows rows f).map (·.ts)).max? with
    | none =>
      rw [List.max?_eq_none_iff] at hmax
      simp [hmax] at hm
    | some hi =>
      have h1 : lo ≤ r.ts := zmin?_le hmin hm
      have h2 : r.ts ≤ hi := zle_max? hmax hm
      have hmr : (r.ts - lo).toNat ∈ List.range (hi - lo).toNat.succ :=
        List.mem_range.2 (by omega)
      have he : lo + (((r.ts - lo).toNat : ℕ) : ℤ) = r.ts := by omega
      exact he ▸ List.mem_map_of_mem (fun i : ℕ => lo + (i : ℤ)) hmr

/-- The resample grid has no duplicate minutes: the quantization step yields
at most one row per (firefighter, minute). -/
theorem qgrid_nodup (rows : List Row) (f : String) : (qgrid rows f).Nodup := by
  unfold qgrid
  cases ffMinTs rows f with
  | none => exact List.Pairwise.nil
  | some lo =>
    cases ffMaxTs rows f with
    | none => exact List.Pairwise.nil
    | some hi =>
      exact (List.nodup_range _).map (fun a b h => by omega)

/-- Distinct minutes of the slice `[T - mins + 1, T]` number at most `mins`. -/
theorem sliceMinutes_length_le (rows : List Row) (f : String) (mins : ℕ)
    (T : ℤ) : (sliceMinutes rows f mins T).length ≤ mins := by
  have hnd : (sliceMinutes rows f mins T).Nodup :=
    (qgrid_nodup rows f).filter _
  have hsub : (sliceMinutes rows f mins T).toFinset ⊆
      Finset.Icc (T - mins + 1) T := by
    intro m hm
    rw [List.mem_toFinset] at hm
    have := of_decide_eq_true (List.mem_filter.1 hm).2
    exact Finset.mem_Icc.2 ⟨this.1, this.2⟩
  have := Finset.card_le_card hsub
  rw [List.toFinset_card_of_nodup hnd, Int.card_Icc] at this
  omega

/-- **C10.**  For minute-quantized input (the model's sensor timestamps are
minutes by construction), the 1-minute group-by-firefighter resampling
produces a duplicate-free minute grid per firefighter — at most one row per
(firefighter, minute) — hence no firefighter has more than `mins` rows in a
window slice of length `mins`, and the fatal invariant assertion of line 398
(`assert(window_df.groupby(ff).size().max() <= window_mins)`) holds for
every firefighter, window length and analysis minute: the computation never
halts on it. -/
theorem c10_quantization_unique_and_assert_holds (rows : List Row)
    (f : String) (mins : ℕ) (T : ℤ) :
    (qgrid rows f).Nodup ∧ windowAssertHolds rows f mins T :=
  ⟨qgrid_nodup rows f, sliceMinutes_length_le rows f mins T⟩

/-- **C4.**  When the range query over the longest-window block ending at the
tick's analysis minute returns zero rows, `run_analytics` returns no
analytics rows, makes no persistence call (even with `commit=True`), and
resets the coverage cache. -/
theorem c4_empty_block_no_output_no_persist (cfg : Config) (st : EngineState)
    (allRows : List Row) (now : ℚ) (commit : Bool)
    (h : blockRowsOf cfg allRows (⌊now⌋ - 1) = []) :
    (runAnalytics cfg st allRows now commit).2.1 = none ∧
    (runAnalytics cfg st allRows now commit).2.2 = [] ∧
    (runAnalytics cfg st allRows now commit).1 = ⟨none⟩ := by
  simp only [runAnalytics, getBlock, h]
  simp

/-- **C4 witness.**  A concrete empty data source: no stored rows at all. -/
theorem c4_witness :
    (runAnalytics ⟨[⟨10, [("carbon_monoxide", 27)]⟩], ["carbon_monoxide"],
        80, [("carbon_monoxide", 1)], 0⟩ ⟨none⟩ [] 101 true).2.1 = none ∧
    (runAnalytics ⟨[⟨10, [("carbon_monoxide", 27)]⟩], ["carbon_monoxide"],
        80, [("carbon_monoxide", 1)], 0⟩ ⟨none⟩ [] 101 true).2.2 = [] ∧
    (runAnalytics ⟨[⟨10, [("carbon_monoxide", 27)]⟩], ["carbon_monoxide"],
        80, [("carbon_monoxide", 1)], 0⟩ ⟨none⟩ [] 101 true).1 = ⟨none⟩ :=
  c4_empty_block_no_output_no_persist _ _ _ _ _ rfl

/-- **C6.**  The autofill buffer is applied only to the derived copy handed
to the aggregation step: the returned coverage table is exactly the stored
cache with every `data_end` advanced by `autofill_minutes`, and the stored
cache itself is independent of the configured `autofill_minutes` (so the
buffer never compounds across ticks). -/
theorem c6_autofill_only_on_derived_copy (cfg : Config) (st : EngineState)
    (allRows : List Row) (blockEnd : ℤ) (a' : ℕ) :
    (getBlock cfg st allRows blockEnd).2.1 =
      ((getBlock cfg st allRows blockEnd).2.2.cache).map
        (addAutofill cfg.autofillMins) ∧
    (getBlock { cfg with autofillMins := a' } st allRows blockEnd).2.2.cache =
      (getBlock cfg st allRows blockEnd).2.2.cache := by
  have hbr : blockRowsOf { cfg with autofillMins := a' } allRows blockEnd =
      blockRowsOf cfg allRows blockEnd := rfl
  unfold getBlock
  rw [hbr]
  by_cases h : (blockRowsOf cfg allRows blockEnd).isEmpty <;> simp [h]

/-- **C9.**  `run_analytics`'s default timestamp
(`current_timestamp=pd.Timestamp.now()`, line 509) is evaluated once, when
the method is defined — so a call that omits the argument analyses
`floor(definition-time) - 1`, not `floor(call-time now) - 1`: here an engine
whose definition-time clock read minute 0 is invoked at wall-clock minute
120 and still computes analysis minute −1, while the docstring ("Defaults to
'now'") and the spec promise minute 119.  An explicitly passed timestamp
behaves as specified. -/
theorem c9_default_timestamp_is_definition_time :
    analysisMinuteOfCall ⟨0⟩ none = -1 ∧
    analysisMinuteOfCall ⟨0⟩ none ≠ ⌊(120 : ℚ)⌋ - 1 ∧
    analysisMinuteOfCall ⟨0⟩ (some 120) = ⌊(120 : ℚ)⌋ - 1 := by
  refine ⟨?_, ?_, ?_⟩ <;> norm_num [analysisMinuteOfCall]

/-! ## Lemmas about the coverage cache merge -/

theorem updEntry_fst (b : Coverage) (e : String × Span) :
    (updEntry b e).1 = e.1 := by
  unfold updEntry
  cases alookup b e.1 <;> rfl

/-- Association lookup distributes over list append. -/
theorem alookup_append (l₁ l₂ : Coverage) (f : String) :
    alookup (l₁ ++ l₂) f = (alookup l₁ f).or (alookup l₂ f) := by
  unfold alookup
  rw [List.find?_append]
  cases List.find? (·.1 == f) l₁ <;> simp

theorem alookup_cons_of_pos {e : String × Span} {f : String}
    (l : Coverage) (h : (e.1 == f) = true) : alookup (e :: l) f = some e.2 := by
  unfold alookup
  rw [List.find?_cons_of_pos (p := fun x => x.1 == f) l h]
  rfl

theorem alookup_cons_of_neg {e : String × Span} {f : String}
    (l : Coverage) (h : ¬(e.1 == f) = true) :
    alookup (e :: l) f = alookup l f := by
  unfold alookup
  rw [List.find?_cons_of_neg (p := fun x => x.1 == f) l h]

/-- Lookup in the updated cache part: the cached span merged (`fmin`/`fmax`)
with the block's span when the firefighter is in both, unchanged otherwise. -/
theorem alookup_map_updEntry (c b : Coverage) (f : String) :
    alookup (c.map (updEntry b)) f =
      (alookup c f).map (fun s =>
        match alookup b f with
        | some t => { dstart := min s.dstart t.dstart,
                      dend := max s.dend t.dend }
        | none => s) := by
  induction c with
  | nil => rfl
  | cons e rest ih =>
    by_cases he : (e.1 == f) = true
    · have hef : e.1 = f := by simpa using he
      rw [List.map_cons,
        alookup_cons_of_pos _ (by rw [updEntry_fst]; exact he),
        alookup_cons_of_pos _ he]
      simp only [Option.map_some']
      unfold updEntry
      rw [hef]
      cases hb : alookup b f <;> rfl
    · rw [List.map_cons,
        alookup_cons_of_neg _ (by rw [updEntry_fst]; exact he),
        alookup_cons_of_neg _ he, ih]

/-- Lookup among the appended block-only entries: the block's span when the
firefighter is absent from the cache, nothing otherwise. -/
theorem alookup_filter_not_cached (c b : Coverage) (f : String) :
    alookup (b.filter (fun e => alookup c e.1 = none)) f =
      if alookup c f = none then alookup b f else none := by
  induction b with
  | nil =>
    simp only [List.filter_nil]
    cases hc : alookup c f <;> simp [alookup]
  | cons e rest ih =>
    by_cases hk : alookup c e.1 = none
    · rw [List.filter_cons_of_pos (by simpa using hk)]
      by_cases he : (e.1 == f) = true
      · have hef : e.1 = f := by simpa using he
        rw [hef] at hk
        rw [alookup_cons_of_pos _ he, alookup_cons_of_pos _ he, if_pos hk]
      · rw [alookup_cons_of_neg _ he, alookup_cons_of_neg _ he, ih]
    · rw [List.filter_cons_of_neg (by simpa using hk)]
      by_cases he : (e.1 == f) = true
      · have hef : e.1 = f := by simpa using he
        rw [hef] at hk
        rw [ih, if_neg hk, if_neg hk]
      · rw [ih, alookup_cons_of_neg _ he]

/-- Full characterization of a lookup in the merged cache: `fmin`/`fmax` of
the two spans when both sides know the firefighter, the surviving side's
span otherwise. -/
theorem alookup_mergeSpans (c b : Coverage) (f : String) :
    alookup (mergeSpans c b) f =
      match alookup c f, alookup b f with
      | some s, some t => some { dstart := min s.dstart t.dstart,
                                 dend := max s.dend t.dend }
      | some s, none => some s
      | none, o => o := by
  unfold mergeSpans
  rw [alookup_append, alookup_map_updEntry, alookup_filter_not_cached]
  cases hc : alookup c f <;> cases hb : alookup b f <;> simp [hc, hb]

/-- **C5.**  Coverage-cache monotonicity across fetches: the cache is reset
to `None` exactly when the block has zero rows; on a non-empty block, every
firefighter already cached keeps an entry whose `data_start` has not
increased and whose `data_end` has not decreased (min/max merge), and a
cached firefighter absent from the block keeps their span unchanged (outer
join). -/
theorem c5_coverage_cache_monotone (cfg : Config) (st : EngineState)
    (allRows : List Row) (blockEnd : ℤ) :
    ((getBlock cfg st allRows blockEnd).2.2.cache = none ↔
      blockRowsOf cfg allRows blockEnd = []) ∧
    (∀ c, st.cache = some c →
      blockRowsOf cfg allRows blockEnd ≠ [] →
      ∀ f s, alookup c f = some s →
        ∃ s', alookup ((getBlock cfg st allRows blockEnd).2.2.cache.getD []) f
            = some s' ∧
          s'.dstart ≤ s.dstart ∧ s.dend ≤ s'.dend ∧
          (alookup (blockSpans (blockRowsOf cfg allRows blockEnd)) f = none →
            s' = s)) := by
  unfold getBlock
  by_cases hbr : (blockRowsOf cfg allRows blockEnd).isEmpty
  · rw [if_pos hbr]
    refine ⟨by simpa [List.isEmpty_iff] using hbr, ?_⟩
    intro c _ hne
    exact absurd (List.isEmpty_iff.1 hbr) hne
  · rw [if_neg hbr]
    refine ⟨by simpa [List.isEmpty_iff] using hbr, ?_⟩
    intro c hc _ f s hs
    rw [hc]
    simp only [Option.getD_some]
    rw [alookup_mergeSpans, hs]
    cases hb : alookup (blockSpans (blockRowsOf cfg allRows blockEnd)) f with
    | none => exact ⟨s, rfl, le_refl _, le_refl _, fun _ => rfl⟩
    | some t =>
      exact ⟨_, rfl, min_le_left _ _, le_max_left _ _,
        fun h => absurd h (by simp)⟩

/-- **C5 witness.**  A concrete non-empty fetch onto a pre-populated cache:
the cached span `[90, 95]` of firefighter `"A"` is widened, never shrunk,
by a block containing a row of `"A"` at minute 100. -/
theorem c5_witness :
    ∃ s', alookup ((getBlock
        ⟨[⟨10, [("carbon_monoxide", 27)]⟩], ["carbon_monoxide"],
          80, [("carbon_monoxide", 1)], 0⟩
        ⟨some [("A", ⟨90, 95⟩)]⟩ [⟨"A", 100, fun _ => 5⟩] 100).2.2.cache.getD [])
        "A" = some s' ∧
      s'.dstart ≤ (⟨90, 95⟩ : Span).dstart ∧
      (⟨90, 95⟩ : Span).dend ≤ s'.dend ∧
      (alookup (blockSpans (blockRowsOf
          ⟨[⟨10, [("carbon_monoxide", 27)]⟩], ["carbon_monoxide"],
            80, [("carbon_monoxide", 1)], 0⟩
          [⟨"A", 100, fun _ => 5⟩] 100)) "A" = none → s' = ⟨90, 95⟩) := by
  refine (c5_coverage_cache_monotone _ ⟨some [("A", ⟨90, 95⟩)]⟩
      [⟨"A", 100, fun _ => 5⟩] 100).2 [("A", ⟨90, 95⟩)] rfl ?_ "A" ⟨90, 95⟩ rfl
  intro h
  have : (⟨"A", 100, fun _ => 5⟩ : Row) ∈ blockRowsOf
      ⟨[⟨10, [("carbon_monoxide", 27)]⟩], ["carbon_monoxide"],
        80, [("carbon_monoxide", 1)], 0⟩ [⟨"A", 100, fun _ => 5⟩] 100 := by
    unfold blockRowsOf longestWindowMins
    refine List.mem_filter.2 ⟨List.mem_singleton_self _, by decide⟩
  rw [h] at this
  exact List.not_mem_nil _ this

/-! ## Idempotence of the cache merge (for C7) -/

/-- Merging into an empty cache just adopts the block's spans. -/
theorem mergeSpans_nil (b : Coverage) : mergeSpans [] b = b := by
  unfold mergeSpans
  rw [List.map_nil, List.nil_append]
  rw [List.filter_eq_self.2]
  intro e _
  simp [alookup]

/-- In a key-duplicate-free coverage table, looking up an entry's own key
finds that entry. -/
theorem alookup_self_of_nodup {b : Coverage}
    (hb : (b.map Prod.fst).Nodup) {e : String × Span} (he : e ∈ b) :
    alookup b e.1 = some e.2 := by
  induction b with
  | nil => cases he
  | cons x rest ih =>
    rcases List.mem_cons.1 he with rfl | hmem
    · exact alookup_cons_of_pos _ (by simp)
    · by_cases hx : (x.1 == e.1) = true
      · exfalso
        have hx' : x.1 = e.1 := by simpa using hx
        have : e.1 ∈ rest.map Prod.fst := List.mem_map_of_mem _ hmem
        rw [List.map_cons, List.nodup_cons] at hb
        exact hb.1 (hx' ▸ this)
      · rw [alookup_cons_of_neg _ hx]
        rw [List.map_cons, List.nodup_cons] at hb
        exact ih hb.2 hmem

/-- Updating a cache entry against the same block twice is the same as
updating it once (`min`/`max` against the same span absorb). -/
theorem updEntry_idem (b : Coverage) (e : String × Span) :
    updEntry b (updEntry b e) = updEntry b e := by
  cases hb0 : alookup b e.1 with
  | none => simp [updEntry, hb0]
  | some t => simp [updEntry, hb0, min_assoc, min_self, max_assoc, max_self]

/-- Re-merging the same key-duplicate-free block is a no-op. -/
theorem mergeSpans_idem (c b : Coverage) (hb : (b.map Prod.fst).Nodup) :
    mergeSpans (mergeSpans c b) b = mergeSpans c b := by
  have hupd : ∀ e ∈ mergeSpans c b, updEntry b e = e := by
    intro e hmem
    rcases List.mem_append.1 hmem with hmap | hfil
    · rcases List.mem_map.1 hmap with ⟨e0, _, rfl⟩
      exact updEntry_idem b e0
    · have hin : e ∈ b := (List.mem_filter.1 hfil).1
      unfold updEntry
      rw [alookup_self_of_nodup hb hin]
      simp [min_self, max_self]
  have hlook : ∀ e ∈ b, ¬(alookup (mergeSpans c b) e.1 = none) := by
    intro e he
    rw [alookup_mergeSpans, alookup_self_of_nodup hb he]
    cases alookup c e.1 <;> simp
  calc mergeSpans (mergeSpans c b) b
      = (mergeSpans c b).map (updEntry b)
          ++ b.filter (fun e => alookup (mergeSpans c b) e.1 = none) := rfl
    _ = mergeSpans c b
          ++ b.filter (fun e => alookup (mergeSpans c b) e.1 = none) := by
        exact congrArg (· ++ _)
          ((List.map_congr_left hupd).trans (List.map_id _))
    _ = mergeSpans c b ++ [] := by
        rw [List.filter_eq_nil_iff.2 (fun e he => by simpa using hlook e he)]
    _ = mergeSpans c b := List.append_nil _

/-- Merging a key-duplicate-free block into an empty cache twice equals
merging it once. -/
theorem mergeSpans_self (b : Coverage) (hb : (b.map Prod.fst).Nodup) :
    mergeSpans b b = b := by
  have h := mergeSpans_idem [] b hb
  rw [mergeSpans_nil] at h
  exact h

/-- The block-span table is keyed by the deduplicated firefighter list, so
its keys are duplicate-free. -/
theorem blockSpans_keys_nodup (rows : List Row) :
    ((blockSpans rows).map Prod.fst).Nodup := by
  unfold blockSpans
  rw [List.map_map]
  exact (List.nodup_dedup _).map (fun a b h => h)

/-- Fetching again with the state left by a fetch returns the identical
block, coverage and state: the second merge of the same block is absorbed. -/
theorem getBlock_state_idem (cfg : Config) (st : EngineState)
    (allRows : List Row) (blockEnd : ℤ) :
    getBlock cfg (getBlock cfg st allRows blockEnd).2.2 allRows blockEnd =
      getBlock cfg st allRows blockEnd := by
  unfold getBlock
  by_cases hbr : (blockRowsOf cfg allRows blockEnd).isEmpty
  · rw [if_pos hbr, if_pos hbr]
  · rw [if_neg hbr, if_neg hbr]
    simp only
    cases hc : st.cache with
    | none => rw [mergeSpans_self _ (blockSpans_keys_nodup _)]
    | some c => rw [mergeSpans_idem _ _ (blockSpans_keys_nodup _)]

/-- **C7.**  `run_analytics` is idempotent with persistence disabled: a
second run with the same timestamp over the same unchanged sensor data
returns the identical result table, and leaves the coverage cache (the only
cross-tick state) unchanged. -/
theorem c7_run_analytics_idempotent (cfg : Config) (st : EngineState)
    (allRows : List Row) (now : ℚ) :
    (runAnalytics cfg (runAnalytics cfg st allRows now false).1
        allRows now false).2.1 =
      (runAnalytics cfg st allRows now false).2.1 ∧
    (runAnalytics cfg (runAnalytics cfg st allRows now false).1
        allRows now false).1 =
      (runAnalytics cfg st allRows now false).1 := by
  have hfst : (runAnalytics cfg st allRows now false).1 =
      (getBlock cfg st allRows (⌊now⌋ - 1)).2.2 := by
    unfold runAnalytics
    by_cases h : (getBlock cfg st allRows (⌊now⌋ - 1)).1.isEmpty <;> simp [h]
  rw [hfst]
  unfold runAnalytics
  rw [getBlock_state_idem]
  exact ⟨rfl, hfst⟩

/-! ## Status classification versus the spec (C2) -/

/-- Spec-side classification of a row's maximum gauge, following §4.6 of the
spec word for word — `[0, yellow−1] → GREEN`, `[yellow, 99] → YELLOW`,
`(99000, +∞] → RANGE_EXCEEDED`, no gauge → absent — except that RED's domain
is amended from the spec's `[99, 99000]` (which double-books 99 with
YELLOW's upper edge) to `(99, 99000]`, as the code resolves the tie. -/
def specStatusOfMaxGauge (y : ℚ) : PVal → Option Status
  | .nan => none
  | .inf => some .rangeExceeded
  | .num q =>
    if 0 ≤ q ∧ q ≤ y - 1 then some .green
    else if y ≤ q ∧ q ≤ 99 then some .yellow
    else if 99 < q ∧ q ≤ 99000 then some .red
    else if 99000 < q then some .rangeExceeded
    else none

/-- A cell that is an integer when finite (gauges are rounded to 0 decimal
places, so every gauge cell is of this shape). -/
def intish : PVal → Prop
  | .num q => ∃ n : ℤ, q = (n : ℚ)
  | _ => True

theorem intish_pround0 (v : PVal) : intish (pround 0 v) := by
  cases v with
  | num a =>
    refine ⟨rhe (a * 10 ^ 0), ?_⟩
    simp [roundq]
  | inf => trivial
  | nan => trivial

theorem intish_pmaxv {a b : PVal} (ha : intish a) (hb : intish b) :
    intish (pmaxv a b) := by
  cases a with
  | nan => cases b <;> simpa [pmaxv] using hb
  | inf => cases b <;> trivial
  | num qa =>
    cases b with
    | nan => simpa [pmaxv] using ha
    | inf => trivial
    | num qb =>
      obtain ⟨na, rfl⟩ := ha
      obtain ⟨nb, rfl⟩ := hb
      exact ⟨max na nb, by push_cast; rfl⟩

theorem intish_pmax {l : List PVal} (h : ∀ v ∈ l, intish v) :
    intish (pmax l) := by
  induction l with
  | nil => trivial
  | cons a rest ih =>
    exact intish_pmaxv (h a (List.mem_cons_self a rest))
      (ih (fun v hv => h v (List.mem_cons_of_mem a hv)))

theorem intish_gaugeCell (cfg : Config) (rows : List Row) (cov : Coverage)
    (T : ℤ) (w : Window) (g : String) (f : String) :
    intish (gaugeCell cfg rows cov T w g f) := by
  unfold gaugeCell
  exact intish_pround0 _

/-- On integer-valued cells the code's `pd.cut` binning coincides with the
spec's classification, with RED starting strictly above 99. -/
theorem pcut_eq_spec (cfg : Config) (y : ℤ)
    (hy : cfg.yellowWarningPercent = (y : ℚ)) (h0 : 0 < y)
    {v : PVal} (hv : intish v) :
    pcut cfg v = specStatusOfMaxGauge (y : ℚ) v := by
  cases v with
  | nan => rfl
  | inf => rfl
  | num q =>
    obtain ⟨n, rfl⟩ := hv
    simp only [pcut, specStatusOfMaxGauge, GREEN_RANGE_START, RED_RANGE_START,
      RED_RANGE_END]
    rw [hy]
    have e1 : ((n : ℚ) < 0) ↔ (n < 0) := by exact_mod_cast Iff.rfl
    have e2 : ((n : ℚ) ≤ (y : ℚ) - 1) ↔ (n ≤ y - 1) := by
      rw [show ((y : ℚ) - 1) = (((y - 1 : ℤ)) : ℚ) by push_cast; ring]
      exact_mod_cast Iff.rfl
    have e3 : ((n : ℚ) ≤ 99) ↔ (n ≤ 99) := by exact_mod_cast Iff.rfl
    have e4 : ((n : ℚ) ≤ (99 : ℚ) * 1000) ↔ (n ≤ 99000) := by
      norm_num
      exact_mod_cast Iff.rfl
    have e5 : (0 ≤ (n : ℚ)) ↔ (0 ≤ n) := by exact_mod_cast Iff.rfl
    have e6 : ((y : ℚ) ≤ (n : ℚ)) ↔ (y ≤ n) := by exact_mod_cast Iff.rfl
    have e7 : ((99 : ℚ) < (n : ℚ)) ↔ (99 < n) := by exact_mod_cast Iff.rfl
    have e8 : ((99000 : ℚ) < (n : ℚ)) ↔ (99000 < n) := by exact_mod_cast Iff.rfl
    have e9 : ((n : ℚ) ≤ (99000 : ℚ)) ↔ (n ≤ 99000) := by exact_mod_cast Iff.rfl
    simp only [e1, e2, e3, e4, e5, e6, e7, e8, e9]
    split_ifs <;> first | rfl | omega

/-- **C2 (amended).**  Every output row's status LED is the spec
classification of the maximum of the row's gauge fields — GREEN on
`[0, yellow−1]`, YELLOW on `[yellow, 99]`, RED on `(99, 99000]` (amended:
the code resolves the spec's shared 99 boundary in YELLOW's favour),
RANGE_EXCEEDED above 99000 including the dominating infinity, and an
absent/unknown status (never GREEN) when the row has no gauge value. -/
theorem c2_status_classifies_max_gauge (cfg : Config) (rows : List Row)
    (cov : Coverage) (T : ℤ) (f : String) (y : ℤ)
    (hy : cfg.yellowWarningPercent = (y : ℚ)) (h0 : 0 < y) :
    (resultRow cfg rows cov T f).statusLED =
      specStatusOfMaxGauge (y : ℚ) (pmax (rowGauges cfg rows cov T f)) := by
  have hint : intish (pmax (rowGauges cfg rows cov T f)) := by
    refine intish_pmax ?_
    intro v hv
    unfold rowGauges at hv
    rcases List.mem_flatMap.1 hv with ⟨w, _, hw⟩
    rcases List.mem_map.1 hw with ⟨g, _, rfl⟩
    exact intish_gaugeCell cfg rows cov T w g f
  exact pcut_eq_spec cfg y hy h0 hint

/-- A concrete single-window configuration (10-minute window, carbon
monoxide limit 27 ppm, yellow at 80%, rounding factor 1, no autofill),
shaped like the repository's test configuration. -/
def cfgA : Config :=
  { windows := [{ mins := 10, gasLimits := [("carbon_monoxide", 27)] }]
    supportedGases := ["carbon_monoxide"]
    yellowWarningPercent := 80
    safeRoundingFactors := [("carbon_monoxide", 1)]
    autofillMins := 0 }

/-- Ten consecutive readings of 26.7 ppm (minutes 91-100) for firefighter
`"A"`: with full coverage this yields a 10-minute gauge of exactly 99. -/
def rowsC2 : List Row :=
  (List.range 10).map (fun i : ℕ => ⟨"A", 91 + (i : ℤ), fun _ => 267 / 10⟩)

/-- **C2 counterexample.**  A full run whose only gauge — hence the row
maximum — is exactly 99: the code classifies it YELLOW, not RED, so the
claim's `[99, 99000] → RED` branch is false at 99 (99 belongs to YELLOW
only). -/
theorem c2_counterexample :
    (runAnalytics cfgA ⟨some [("A", ⟨80, 95⟩)]⟩ rowsC2 101 false).2.1 =
      some [{ ff := "A"
              cells := [{ mins := 10
                          twas := [("carbon_monoxide", .num (267 / 10))]
                          gauges := [("carbon_monoxide", .num 99)] }]
              statusLED := some .yellow }] ∧
    (some Status.yellow ≠ some Status.red) := by
  exact ⟨by with_unfolding_all decide, by decide⟩

/-- **C2 witness.**  The amended classification theorem applied to the
concrete 99-gauge row. -/
theorem c2_witness :
    (resultRow cfgA rowsC2 [("A", ⟨80, 100⟩)] 100 "A").statusLED =
      specStatusOfMaxGauge ((80 : ℤ) : ℚ)
        (pmax (rowGauges cfgA rowsC2 [("A", ⟨80, 100⟩)] 100 "A")) :=
  c2_status_classifies_max_gauge cfgA rowsC2 [("A", ⟨80, 100⟩)] 100 "A" 80
    (by decide) (by decide)

/-! ## Sentinel propagation through mean, product and max (C1, C3) -/

theorem psum_ne_nan {l : List PVal} (h : ∀ v ∈ l, v ≠ .nan) :
    psum l ≠ .nan := by
  induction l with
  | nil => simp [psum]
  | cons a rest ih =>
    have ha := h a (List.mem_cons_self a rest)
    have hrest := ih (fun v hv => h v (List.mem_cons_of_mem a hv))
    show padd a (psum rest) ≠ .nan
    cases a <;> cases hp : psum rest <;> simp_all [padd]

theorem psum_inf {l : List PVal} (hmem : PVal.inf ∈ l)
    (h : ∀ v ∈ l, v ≠ .nan) : psum l = .inf := by
  induction l with
  | nil => cases hmem
  | cons a rest ih =>
    have hrest : ∀ v ∈ rest, v ≠ PVal.nan :=
      fun v hv => h v (List.mem_cons_of_mem a hv)
    show padd a (psum rest) = .inf
    rcases List.mem_cons.1 hmem with rfl | hm
    · have := psum_ne_nan hrest
      cases hp : psum rest <;> simp_all [padd]
    · rw [ih hm hrest]
      have ha := h a (List.mem_cons_self a rest)
      cases a <;> simp_all [padd]

/-- A pandas column mean over a group containing the `np.inf` dominator is
`np.inf`: the sentinel is never averaged away. -/
theorem pmean_inf {l : List PVal} (hmem : PVal.inf ∈ l) : pmean l = .inf := by
  unfold pmean
  have hmem' : PVal.inf ∈ l.filter (· ≠ .nan) :=
    List.mem_filter.2 ⟨hmem, by simp⟩
  have hne : l.filter (· ≠ .nan) ≠ [] := by
    intro h
    rw [h] at hmem'
    cases hmem'
  rw [if_neg hne, psum_inf hmem' (fun v hv => by
    have := (List.mem_filter.1 hv).2
    simpa using this)]
  rfl

/-- A pandas row max over cells containing the `np.inf` dominator is
`np.inf` (NaNs are skipped, nothing exceeds infinity). -/
theorem pmax_inf {l : List PVal} (hmem : PVal.inf ∈ l) : pmax l = .inf := by
  induction l with
  | nil => cases hmem
  | cons a rest ih =>
    show pmaxv a (pmax rest) = .inf
    rcases List.mem_cons.1 hmem with rfl | hm
    · cases pmax rest <;> rfl
    · rw [ih hm]
      cases a <;> rfl

/-- A sensor row carrying the device's range-exceeded sentinel (a negative
reading) quantizes to the `np.inf` dominator at its own minute. -/
theorem qcell_inf_of_neg {rows : List Row} {f : String} {m : ℤ} {g : String}
    {r : Row} (hat : rowAt rows f m = some r) (hneg : r.val g < 0) :
    qcell rows f m g = .inf := by
  unfold qcell
  rw [hat]
  show maskVal (r.val g) = .inf
  unfold maskVal
  rw [if_pos hneg]

/-- The minute of an observed sample inside the window bounds belongs to the
window's slice of the resample grid. -/
theorem mem_sliceMinutes_of_rowAt {rows : List Row} {f : String} {m : ℤ}
    {r : Row} (hat : rowAt rows f m = some r) {mins : ℕ} {T : ℤ}
    (hlo : T - mins + 1 ≤ m) (hhi : m ≤ T) :
    m ∈ sliceMinutes rows f mins T := by
  have hat' : (ffRows rows f).find? (·.ts == m) = some r := hat
  have hmem : r ∈ ffRows rows f := List.mem_of_find?_eq_some hat'
  have hts : r.ts = m := by simpa using List.find?_some hat'
  have hgrid : m ∈ qgrid rows f := hts ▸ ts_mem_qgrid hmem
  exact List.mem_filter.2 ⟨hgrid, decide_eq_true ⟨hlo, hhi⟩⟩

/-- A positive data/window overlap yields a positive coverage proportion. -/
theorem propQ_pos (s : Span) (mins : ℕ) (T : ℤ)
    (hov : 0 < min s.dend T - max s.dstart (T - (mins : ℤ)))
    (hm : 0 < mins) : 0 < propQ s mins T := by
  unfold propQ
  simp only
  rw [if_pos hov]
  by_cases hc :
      ((min s.dend T - max s.dstart (T - (mins : ℤ)) : ℤ) : ℚ) < (mins : ℚ)
  · rw [if_pos hc]
    apply div_pos
    · exact_mod_cast hov
    · exact_mod_cast hm
  · rw [if_neg hc]
    norm_num

/-- **C1 (amended).**  One range-exceeded sample (negative reading) anywhere
in a window's slice for a gas forces that window's final TWA and Gauge for
that gas/firefighter to the `RANGE_EXCEEDED` reporting sentinel (−1), and
forces the row's overall status to RANGE_EXCEEDED (the dominating gauge is
automatically the row maximum) — *provided* the firefighter's coverage
overlap with that window is positive, the window length is positive and the
gas limit is positive.  (When the overlap is zero — e.g. the firefighter's
only reading ever lies at the window's trailing edge — `inf × 0 = NaN` and
the fields are reported absent, not as the sentinel; see the
counterexample.) -/
theorem c1_sentinel_propagation (cfg : Config) (rows : List Row)
    (cov : Coverage) (T : ℤ) (w : Window) (g : String) (f : String)
    (m : ℤ) (r : Row) (s : Span)
    (hw : w ∈ cfg.windows) (hg : g ∈ cfg.supportedGases)
    (hat : rowAt rows f m = some r) (hneg : r.val g < 0)
    (hlo : T - w.mins + 1 ≤ m) (hhi : m ≤ T)
    (hs : alookup cov f = some s)
    (hov : 0 < min s.dend T - max s.dstart (T - (w.mins : ℤ)))
    (hwm : 0 < w.mins) (hlim : 0 < limitOf w g) :
    finalize (twaCell cfg rows cov T w g f) = .num RANGE_EXCEEDED ∧
    finalize (gaugeCell cfg rows cov T w g f) = .num RANGE_EXCEEDED ∧
    (resultRow cfg rows cov T f).statusLED = some .rangeExceeded := by
  have hslice : m ∈ sliceMinutes rows f w.mins T :=
    mem_sliceMinutes_of_rowAt hat hlo hhi
  have hinf : PVal.inf ∈ (sliceMinutes rows f w.mins T).map
      (fun m => qcell rows f m g) :=
    List.mem_map.2 ⟨m, hslice, qcell_inf_of_neg hat hneg⟩
  have hmean : pmean ((sliceMinutes rows f w.mins T).map
      (fun m => qcell rows f m g)) = .inf := pmean_inf hinf
  have hprop : proportionOf cov f w.mins T = .num (propQ s w.mins T) := by
    unfold proportionOf
    rw [hs]
  have hppos : propQ s w.mins T ≠ 0 :=
    ne_of_gt (propQ_pos s w.mins T hov hwm)
  have hpm : pmul .inf (.num (propQ s w.mins T)) = .inf := by
    show (if propQ s w.mins T = 0 then PVal.nan else PVal.inf) = PVal.inf
    rw [if_neg hppos]
  have htwa : twaCell cfg rows cov T w g f = .inf := by
    unfold twaCell
    rw [hmean, hprop]
    show pround (roundingFactorOf cfg g)
      (pmul .inf (.num (propQ s w.mins T))) = .inf
    rw [hpm]
    rfl
  have h100 : pmulq .inf (100 : ℚ) = .inf := by
    show (if (100 : ℚ) = 0 then PVal.nan else PVal.inf) = PVal.inf
    rw [if_neg (by norm_num : (100 : ℚ) ≠ 0)]
  have hdiv : pdivq .inf (limitOf w g) = .inf := by
    show (if 0 < limitOf w g then PVal.inf else PVal.nan) = PVal.inf
    rw [if_pos hlim]
  have hgauge : gaugeCell cfg rows cov T w g f = .inf := by
    unfold gaugeCell
    rw [htwa, h100, hdiv]
    rfl
  refine ⟨by rw [htwa]; rfl, by rw [hgauge]; rfl, ?_⟩
  have hginf : PVal.inf ∈ rowGauges cfg rows cov T f := by
    unfold rowGauges
    exact List.mem_flatMap.2 ⟨w, hw,
      List.mem_map.2 ⟨g, hg, hgauge⟩⟩
  show pcut cfg (pmax (rowGauges cfg rows cov T f)) = some .rangeExceeded
  rw [pmax_inf hginf]
  rfl

/-- The 10-minute window of `cfgA`. -/
def w10 : Window := { mins := 10, gasLimits := [("carbon_monoxide", 27)] }

/-- Firefighter `"A"`: a clean reading at minute 91 and a range-exceeded
sentinel reading (−1) at minute 99. -/
def rowsC1 : List Row := [⟨"A", 91, fun _ => 2⟩, ⟨"A", 99, fun _ => -1⟩]

/-- The buffered coverage the pipeline derives for `rowsC1` at minute 100. -/
def covC1 : Coverage := [("A", ⟨91, 99⟩)]

/-- **C1 counterexample.**  A firefighter whose *only* sample is a
range-exceeded sentinel at the analysis minute itself: the sample is in
every window's slice, yet the coverage overlap of the single-point data span
`[100, 100]` with the window `[90, 100]` is zero, so the pipeline computes
`inf × 0 = NaN` — the final TWA and Gauge are NaN, not the −1 sentinel, and
the row's status is absent, not RANGE_EXCEEDED.  The claim as stated
(sentinel propagation with no positive-overlap proviso) is therefore false. -/
theorem c1_counterexample :
    (runAnalytics cfgA ⟨none⟩ [⟨"A", 100, fun _ => -1⟩] 101 false).2.1 =
      some [{ ff := "A"
              cells := [{ mins := 10
                          twas := [("carbon_monoxide", PVal.nan)]
                          gauges := [("carbon_monoxide", PVal.nan)] }]
              statusLED := none }] ∧
    PVal.nan ≠ PVal.num RANGE_EXCEEDED ∧
    (none : Option Status) ≠ some Status.rangeExceeded := by
  refine ⟨by with_unfolding_all decide, by decide, by decide⟩

/-- **C1 witness.**  The amended sentinel-propagation theorem applied to a
concrete scenario with positive coverage overlap: a clean reading at minute
91 and a sentinel reading at minute 99 force the final 10-minute TWA, Gauge
and row status to the range-exceeded sentinel. -/
theorem c1_witness :
    finalize (twaCell cfgA rowsC1 covC1 100 w10 "carbon_monoxide" "A") =
      .num RANGE_EXCEEDED ∧
    finalize (gaugeCell cfgA rowsC1 covC1 100 w10 "carbon_monoxide" "A") =
      .num RANGE_EXCEEDED ∧
    (resultRow cfgA rowsC1 covC1 100 "A").statusLED =
      some .rangeExceeded := by
  refine c1_sentinel_propagation cfgA rowsC1 covC1 100 w10 "carbon_monoxide"
    "A" 99 ⟨"A", 99, fun _ => -1⟩ ⟨91, 99⟩ ?_ ?_ rfl ?_ ?_ ?_ rfl ?_ ?_ ?_
  · decide
  · decide
  · norm_num
  · decide
  · decide
  · decide
  · decide
  · with_unfolding_all decide

/-- **C3 counterexample.**  Scenario A of the spec: a single-ever reading of
`V = 5` ppm at minute `M = 100`, 10-minute window, `autofill_minutes = 0`.
The spec claims `TWA = round(V × 1/10, 1) = 0.5`; the code computes a zero
coverage overlap from the point span `[M, M]` (`min(data_end, T) −
max(data_start, T−L) = M − M = 0`), so the TWA is 0, not 0.5.  (The
repository's own test `test_first_sensor_record_of_the_day` expects 0.0.) -/
theorem c3_counterexample :
    (runAnalytics cfgA ⟨none⟩ [⟨"A", 100, fun _ => 5⟩] 101 false).2.1 =
      some [{ ff := "A"
              cells := [{ mins := 10
                          twas := [("carbon_monoxide", PVal.num 0)]
                          gauges := [("carbon_monoxide", PVal.num 0)] }]
              statusLED := some .green }] ∧
    PVal.num 0 ≠ PVal.num (roundq 1 (5 * (1 / 10))) := by
  refine ⟨by with_unfolding_all decide, by with_unfolding_all decide⟩

/-- **C3 (amended).**  For a firefighter whose only sensor reading ever is
at minute `M = 100` with value `V ≥ 0` ppm, with the configured 10-minute
window and `autofill_minutes = 0`, running the analytics for minute `M`
produces a 10-minute TWA (and Gauge) of exactly 0 — the mean `V` of the
single available sample is scaled by a coverage proportion of 0, not 1/10,
because the observed data span is the single point `[M, M]`. -/
theorem c3_single_reading_twa_is_zero (V : ℚ) (hV : 0 ≤ V) :
    (runAnalytics cfgA ⟨none⟩ [⟨"A", 100, fun _ => V⟩] 101 false).2.1 =
      some [{ ff := "A"
              cells := [{ mins := 10
                          twas := [("carbon_monoxide", PVal.num 0)]
                          gauges := [("carbon_monoxide", PVal.num 0)] }]
              statusLED := some .green }] := by
  have hmask : maskVal V = .num V := by
    unfold maskVal
    rw [if_neg (not_lt.2 hV)]
  have hx : ∃ x : ℚ, pmean ((sliceMinutes [(⟨"A", 100, fun _ => V⟩ : Row)] "A" 10 100).map
      (fun m => qcell [⟨"A", 100, fun _ => V⟩] "A" m "carbon_monoxide")) = .num x := by
    refine ⟨(V + 0) / ((1 : ℕ) : ℚ), ?_⟩
    show pmean [maskVal V] = _
    rw [hmask]
    with_unfolding_all rfl
  obtain ⟨x, hx⟩ := hx
  have hprop : proportionOf [("A", ⟨100, 100⟩)] "A" 10 100 = .num 0 := by
    with_unfolding_all decide
  have htwa : twaCell cfgA [⟨"A", 100, fun _ => V⟩] [("A", ⟨100, 100⟩)] 100
      ⟨10, [("carbon_monoxide", 27)]⟩ "carbon_monoxide" "A" = .num 0 := by
    unfold twaCell
    show pround 1 (pmul (pmean ((sliceMinutes [(⟨"A", 100, fun _ => V⟩ : Row)] "A" 10 100).map
      (fun m => qcell [⟨"A", 100, fun _ => V⟩] "A" m "carbon_monoxide")))
      (proportionOf [("A", ⟨100, 100⟩)] "A" 10 100)) = .num 0
    rw [hx, hprop]
    show PVal.num (roundq 1 (x * 0)) = .num 0
    rw [mul_zero]
    norm_num [roundq, rhe]
  have hgauge : gaugeCell cfgA [⟨"A", 100, fun _ => V⟩] [("A", ⟨100, 100⟩)] 100
      ⟨10, [("carbon_monoxide", 27)]⟩ "carbon_monoxide" "A" = .num 0 := by
    unfold gaugeCell
    rw [htwa]
    with_unfolding_all decide
  have hst : pcut cfgA (pmax (rowGauges cfgA [⟨"A", 100, fun _ => V⟩]
      [("A", ⟨100, 100⟩)] 100 "A")) = some .green := by
    have hrg : rowGauges cfgA [⟨"A", 100, fun _ => V⟩] [("A", ⟨100, 100⟩)] 100 "A" =
        [gaugeCell cfgA [⟨"A", 100, fun _ => V⟩] [("A", ⟨100, 100⟩)] 100
          ⟨10, [("carbon_monoxide", 27)]⟩ "carbon_monoxide" "A"] := rfl
    rw [hrg, hgauge]
    with_unfolding_all decide
  show some [resultRow cfgA [⟨"A", 100, fun _ => V⟩] [("A", ⟨100, 100⟩)] 100 "A"] = _
  have hrr : resultRow cfgA [⟨"A", 100, fun _ => V⟩] [("A", ⟨100, 100⟩)] 100 "A" =
      { ff := "A"
        cells := [{ mins := 10
                    twas := [("carbon_monoxide", PVal.num 0)]
                    gauges := [("carbon_monoxide", PVal.num 0)] }]
        statusLED := some .green } := by
    unfold resultRow
    rw [hst]
    show ({ ff := "A"
            cells := [{ mins := 10
                        twas := [("carbon_monoxide", finalize (twaCell cfgA [⟨"A", 100, fun _ => V⟩]
                          [("A", ⟨100, 100⟩)] 100 ⟨10, [("carbon_monoxide", 27)]⟩ "carbon_monoxide" "A"))]
                        gauges := [("carbon_monoxide", finalize (gaugeCell cfgA [⟨"A", 100, fun _ => V⟩]
                          [("A", ⟨100, 100⟩)] 100 ⟨10, [("carbon_monoxide", 27)]⟩ "carbon_monoxide" "A"))] }]
            statusLED := some Status.green } : ResultRow) = _
    rw [htwa, hgauge]
    rfl
  rw [hrr]

/-- **C3 witness.**  The amended theorem instantiated at `V = 5`. -/
theorem c3_witness :
    (runAnalytics cfgA ⟨none⟩ [⟨"A", 100, fun _ => 5⟩] 101 false).2.1 =
      some [{ ff := "A"
              cells := [{ mins := 10
                          twas := [("carbon_monoxide", PVal.num 0)]
                          gauges := [("carbon_monoxide", PVal.num 0)] }]
              statusLED := some .green }] :=
  c3_single_reading_twa_is_zero 5 (by norm_num)

/-! ## Configuration validation (`_validate_config`, lines 65-152)

The raw configuration as loaded from JSON: numbers that the code probes with
`isinstance(x, int)` are modelled as a tagged integer/float value.  Checks
run in source order and append their critical messages to one list; a failed
dictionary lookup (`window[gas_limits][gas]`, `SENSOR_RANGE_PPM[gas]`,
`SAFE_ROUNDING_FACTORS[gas]`) or `WINDOWS_AND_LIMITS[0]` on an empty list
raises immediately (`KeyError`/`IndexError`), modelled as `Except.error`,
which discards the messages accumulated so far and skips the remaining
checks.  The final `assert valid_config` fails exactly when the critical
list is non-empty. -/

/-- A JSON number: `isinstance(x, int)` distinguishes the constructors. -/
inductive PyNum where
  | int : ℤ → PyNum
  | float : ℚ → PyNum
deriving DecidableEq, Repr

/-- `isinstance(x, int) and x >= 0` (lines 130, 138). -/
def PyNum.isNonnegInt : PyNum → Bool
  | .int z => decide (0 ≤ z)
  | .float _ => false

/-- `x > 20` (line 144; only evaluated on integers in the code). -/
def PyNum.gt20 : PyNum → Bool
  | .int z => decide (20 < z)
  | .float q => decide (20 < q)

/-- One `windows_and_limits` entry as validation sees it (the window length
is not inspected by `_validate_config`). -/
structure RawWindow where
  gasLimits : List (String × ℚ)
deriving DecidableEq, Repr

/-- The configuration document handed to `_validate_config`. -/
structure RawConfig where
  windows : List RawWindow
  supportedGases : List String
  yellowWarningPercent : ℚ
  safeRoundingFactors : List (String × PyNum)
  autofillMins : PyNum
deriving DecidableEq, Repr

/-- The distinct critical messages `_validate_config` can emit (abstracted
from the formatted strings; one constructor per message site). -/
inductive ConfigIssue where
  | mismatchedWindows
  | unsupportedGas
  | limitsOutOfRange (gas : String)
  | badYellow
  | badRoundingFactor (gas : String)
  | badAutofill
deriving DecidableEq, Repr

/-- The warning-only messages (logged, never added to the critical list). -/
inductive ConfigWarning where
  | thinHeadroom (gas : String)
  | largeAutofill
deriving DecidableEq, Repr

/-- A Python lookup exception escaping `_validate_config`. -/
inductive PyError where
  | keyError (key : String)
  | indexError
deriving DecidableEq, Repr

/-- `window[GAS_LIMITS_PROPERTY].keys()`. -/
def keyset (w : RawWindow) : List String := w.gasLimits.map Prod.fst

/-- Python dict-keys equality is set equality. -/
def sameKeys (a b : List String) : Bool :=
  a.all (fun x => b.contains x) && b.all (fun x => a.contains x)

/-- `window[GAS_LIMITS_PROPERTY][gas]` as a safe lookup. -/
def lookupLimit (w : RawWindow) (gas : String) : Option ℚ :=
  (w.gasLimits.find? (·.1 == gas)).map (·.2)

/-- `[window[GAS_LIMITS_PROPERTY][gas] for window in WINDOWS_AND_LIMITS]`
(line 106): the first missing key raises `KeyError`. -/
def collectLimits : List RawWindow → String → Except PyError (List ℚ)
  | [], _ => .ok []
  | w :: ws, gas =>
    match lookupLimit w gas with
    | some q => do
      let rest ← collectLimits ws gas
      .ok (q :: rest)
    | none => .error (.keyError gas)

/-- `min(limits)` of a non-empty list (0 is never reached: the windows list
is non-empty whenever this is evaluated). -/
def qlistMin : List ℚ → ℚ
  | [] => 0
  | x :: xs => xs.foldl min x

/-- `max(limits)` of a non-empty list. -/
def qlistMax : List ℚ → ℚ
  | [] => 0
  | x :: xs => xs.foldl max x

/-- The per-gas limits-range check loop (lines 105-118): critical when a
limit escapes the hard-coded sensor range, warning-only when the sensor max
is under twice the largest limit. -/
def gasRangeChecks (c : RawConfig) :
    List String → Except PyError (List ConfigIssue × List ConfigWarning)
  | [] => .ok ([], [])
  | gas :: rest => do
    let limits ← collectLimits c.windows gas
    match SENSOR_RANGE_PPM gas with
    | none => .error (.keyError gas)
    | some (lo, hi) =>
      let iss := if qlistMin limits < lo ∨ hi < qlistMax limits
        then [ConfigIssue.limitsOutOfRange gas] else []
      let warns := if hi < qlistMax limits * 2
        then [ConfigWarning.thinHeadroom gas] else []
      let (iss', warns') ← gasRangeChecks c rest
      .ok (iss ++ iss', warns ++ warns')

/-- The per-gas safe-rounding-factor check loop (lines 129-135): critical
when the factor is not a non-negative integer; a missing factor raises. -/
def rfChecks (c : RawConfig) : List String → Except PyError (List ConfigIssue)
  | [] => .ok []
  | gas :: rest =>
    match (c.safeRoundingFactors.find? (·.1 == gas)).map (·.2) with
    | none => .error (.keyError gas)
    | some v => do
      let iss := if v.isNonnegInt then [] else [ConfigIssue.badRoundingFactor gas]
      let rest' ← rfChecks c rest
      .ok (iss ++ rest')

/-- `_validate_config` (lines 65-152): runs every check in source order,
accumulating critical messages and warnings; a lookup failure aborts with
the exception.  The caller's `assert valid_config` fails iff the critical
list is non-empty. -/
def validateConfig (c : RawConfig) :
    Except PyError (List ConfigIssue × List ConfigWarning) :=
  match c.windows with
  | [] => .error .indexError
  | w0 :: _ => do
    let iss1 := if c.windows.any (fun w => !sameKeys (keyset w) (keyset w0))
      then [ConfigIssue.mismatchedWindows] else []
    let iss2 := if c.supportedGases.all (fun g => (keyset w0).contains g)
      then [] else [ConfigIssue.unsupportedGas]
    let (iss3, warns3) ← gasRangeChecks c c.supportedGases
    let iss4 := if 0 < c.yellowWarningPercent ∧ c.yellowWarningPercent < 100
      then [] else [ConfigIssue.badYellow]
    let iss5 ← rfChecks c c.supportedGases
    let iss6 := if c.autofillMins.isNonnegInt then [] else [ConfigIssue.badAutofill]
    let warns6 := if c.autofillMins.isNonnegInt && c.autofillMins.gt20
      then [ConfigWarning.largeAutofill] else []
    .ok (iss1 ++ iss2 ++ iss3 ++ iss4 ++ iss5 ++ iss6, warns3 ++ warns6)

/-- The configuration is rejected: either a lookup exception escaped, or the
final `assert` fired on a non-empty critical list. -/
def validationFails (c : RawConfig) : Prop :=
  match validateConfig c with
  | .error _ => True
  | .ok (iss, _) => iss ≠ []

/-- Rule 1 broken: some window's gas-limit key set differs from window 0's. -/
def mismatchB (c : RawConfig) : Bool :=
  match c.windows with
  | [] => false
  | w0 :: _ => c.windows.any (fun w => !sameKeys (keyset w) (keyset w0))

/-- Rule 2 broken: a supported gas has no limit key in window 0. -/
def subsetViolB (c : RawConfig) : Bool :=
  match c.windows with
  | [] => false
  | w0 :: _ => !(c.supportedGases.all (fun g => (keyset w0).contains g))

/-- Rule 3 broken for a gas: some configured limit escapes the hard-coded
sensor range (false when a lookup would crash instead). -/
def rangeViolB (c : RawConfig) (g : String) : Bool :=
  match collectLimits c.windows g, SENSOR_RANGE_PPM g with
  | .ok ls, some (lo, hi) => decide (qlistMin ls < lo ∨ hi < qlistMax ls)
  | _, _ => false

/-- Warning condition for a gas: sensor max under twice the largest limit. -/
def headroomB (c : RawConfig) (g : String) : Bool :=
  match collectLimits c.windows g, SENSOR_RANGE_PPM g with
  | .ok ls, some (_, hi) => decide (hi < qlistMax ls * 2)
  | _, _ => false

/-- Rule 6 broken for a gas: its rounding factor exists but is not a
non-negative integer. -/
def rfViolB (c : RawConfig) (g : String) : Bool :=
  match (c.safeRoundingFactors.find? (·.1 == g)).map (·.2) with
  | some v => !v.isNonnegInt
  | none => false

theorem collectLimits_ok {ws : List RawWindow} {g : String}
    (h : ∀ w ∈ ws, (lookupLimit w g).isSome) :
    ∃ ls, collectLimits ws g = .ok ls := by
  induction ws with
  | nil => exact ⟨[], rfl⟩
  | cons w ws ih =>
    obtain ⟨ls, hls⟩ := ih (fun w' hw' => h w' (List.mem_cons_of_mem w hw'))
    cases hlw : lookupLimit w g with
    | none =>
      have := h w (List.mem_cons_self w ws)
      rw [hlw] at this
      cases this
    | some q =>
      refine ⟨q :: ls, ?_⟩
      unfold collectLimits
      rw [hlw, hls]
      rfl

/-- When no lookup crashes, the range-check loop succeeds and reports
exactly the gases whose limits are out of range (and, as warnings, exactly
those with thin headroom). -/
theorem gasRangeChecks_ok (c : RawConfig) (gs : List String)
    (h : ∀ g ∈ gs, (∀ w ∈ c.windows, (lookupLimit w g).isSome) ∧
      (SENSOR_RANGE_PPM g).isSome) :
    gasRangeChecks c gs = .ok
      ((gs.filter (fun g => rangeViolB c g)).map ConfigIssue.limitsOutOfRange,
       (gs.filter (fun g => headroomB c g)).map ConfigWarning.thinHeadroom) := by
  induction gs with
  | nil => rfl
  | cons g rest ih =>
    obtain ⟨h1, h2⟩ := h g (List.mem_cons_self g rest)
    obtain ⟨ls, hls⟩ := collectLimits_ok h1
    have ihr := ih (fun g' hg' => h g' (List.mem_cons_of_mem g hg'))
    cases hr : SENSOR_RANGE_PPM g with
    | none =>
      rw [hr] at h2
      cases h2
    | some p =>
      obtain ⟨lo, hi⟩ := p
      have hrv : rangeViolB c g = decide (qlistMin ls < lo ∨ hi < qlistMax ls) := by
        unfold rangeViolB
        rw [hls, hr]
      have hhb : headroomB c g = decide (hi < qlistMax ls * 2) := by
        unfold headroomB
        rw [hls, hr]
      unfold gasRangeChecks
      rw [hls]
      show (match SENSOR_RANGE_PPM g with
        | none => Except.error (PyError.keyError g)
        | some (lo, hi) => do
          let iss := if qlistMin ls < lo ∨ hi < qlistMax ls
            then [ConfigIssue.limitsOutOfRange g] else []
          let warns := if hi < qlistMax ls * 2
            then [ConfigWarning.thinHeadroom g] else []
          let (iss', warns') ← gasRangeChecks c rest
          Except.ok (iss ++ iss', warns ++ warns')) = _
      rw [hr, ihr]
      rw [List.filter_cons, List.filter_cons, hrv, hhb]
      by_cases hv : qlistMin ls < lo ∨ hi < qlistMax ls <;>
        by_cases hh : hi < qlistMax ls * 2 <;>
          (simp [hv, hh]; try rfl)

/-- When every supported gas has a rounding factor, the rounding-factor loop
succeeds and reports exactly the gases whose factor is invalid. -/
theorem rfChecks_ok (c : RawConfig) (gs : List String)
    (h : ∀ g ∈ gs, ((c.safeRoundingFactors.find? (·.1 == g)).map (·.2)).isSome) :
    rfChecks c gs = .ok
      ((gs.filter (fun g => rfViolB c g)).map ConfigIssue.badRoundingFactor) := by
  induction gs with
  | nil => rfl
  | cons g rest ih =>
    have ihr := ih (fun g' hg' => h g' (List.mem_cons_of_mem g hg'))
    cases hf : ((c.safeRoundingFactors.find? (·.1 == g)).map (·.2)) with
    | none =>
      have := h g (List.mem_cons_self g rest)
      rw [hf] at this
      cases this
    | some v =>
      have hrf : rfViolB c g = !v.isNonnegInt := by
        unfold rfViolB
        rw [hf]
      unfold rfChecks
      rw [hf]
      show (do
        let iss := if v.isNonnegInt then []
          else [ConfigIssue.badRoundingFactor g]
        let rest' ← rfChecks c rest
        Except.ok (iss ++ rest')) = _
      rw [ihr, List.filter_cons, hrf]
      cases hnn : v.isNonnegInt <;> (simp [hnn]; try rfl)

/-- The fatal rule attached to each critical message: the message is emitted
iff its rule is broken (in lookup-crash-free configurations). -/
def issueHolds (c : RawConfig) : ConfigIssue → Prop
  | .mismatchedWindows => mismatchB c = true
  | .unsupportedGas => subsetViolB c = true
  | .limitsOutOfRange g => g ∈ c.supportedGases ∧ rangeViolB c g = true
  | .badYellow => ¬(0 < c.yellowWarningPercent ∧ c.yellowWarningPercent < 100)
  | .badRoundingFactor g => g ∈ c.supportedGases ∧ rfViolB c g = true
  | .badAutofill => c.autofillMins.isNonnegInt = false

/-- **C8 (amended).**  In configurations where no dictionary lookup crashes
(non-empty window list; every supported gas has a limit in every window, a
hard-coded sensor range, and a rounding-factor entry), `_validate_config`
runs to its final assertion with a critical-message list that contains a
message *for exactly the broken fatal rules* (all checks accumulate), and
validation fails iff at least one fatal rule is broken; warning-only
findings (thin limit headroom, `autofill_minutes > 20`) are never in the
critical list and never cause failure.  (Outside this crash-free regime the
claim is false: a missing limit key for a supported gas aborts validation
with a bare `KeyError`, discarding the accumulated messages and skipping
the remaining checks — see the counterexample.) -/
theorem c8_validation_accumulates_iff (c : RawConfig)
    (hw : c.windows ≠ [])
    (hlim : ∀ g ∈ c.supportedGases, ∀ w ∈ c.windows, (lookupLimit w g).isSome)
    (hrange : ∀ g ∈ c.supportedGases, (SENSOR_RANGE_PPM g).isSome)
    (hrf : ∀ g ∈ c.supportedGases,
      ((c.safeRoundingFactors.find? (·.1 == g)).map (·.2)).isSome) :
    ∃ iss warns, validateConfig c = .ok (iss, warns) ∧
      (∀ i, i ∈ iss ↔ issueHolds c i) ∧
      (validationFails c ↔ ∃ i, issueHolds c i) := by
  obtain ⟨w0, ws, hcw⟩ : ∃ w0 ws, c.windows = w0 :: ws := by
    cases hcw : c.windows with
    | nil => exact absurd hcw hw
    | cons w0 ws => exact ⟨w0, ws, rfl⟩
  have hgrc := gasRangeChecks_ok c c.supportedGases
    (fun g hg => ⟨hlim g hg, hrange g hg⟩)
  have hrfc := rfChecks_ok c c.supportedGases hrf
  have hvc : validateConfig c = .ok
      ((if c.windows.any (fun w => !sameKeys (keyset w) (keyset w0))
          then [ConfigIssue.mismatchedWindows] else []) ++
        (if c.supportedGases.all (fun g => (keyset w0).contains g)
          then [] else [ConfigIssue.unsupportedGas]) ++
        ((c.supportedGases.filter (fun g => rangeViolB c g)).map
          ConfigIssue.limitsOutOfRange) ++
        (if 0 < c.yellowWarningPercent ∧ c.yellowWarningPercent < 100
          then [] else [ConfigIssue.badYellow]) ++
        ((c.supportedGases.filter (fun g => rfViolB c g)).map
          ConfigIssue.badRoundingFactor) ++
        (if c.autofillMins.isNonnegInt then []
          else [ConfigIssue.badAutofill]),
        ((c.supportedGases.filter (fun g => headroomB c g)).map
          ConfigWarning.thinHeadroom) ++
        (if c.autofillMins.isNonnegInt && c.autofillMins.gt20
          then [ConfigWarning.largeAutofill] else [])) := by
    unfold validateConfig
    rw [hcw]
    show (do
      let iss1 := if (w0 :: ws).any (fun w => !sameKeys (keyset w) (keyset w0))
        then [ConfigIssue.mismatchedWindows] else []
      let iss2 := if c.supportedGases.all (fun g => (keyset w0).contains g)
        then [] else [ConfigIssue.unsupportedGas]
      let (iss3, warns3) ← gasRangeChecks c c.supportedGases
      let iss4 := if 0 < c.yellowWarningPercent ∧ c.yellowWarningPercent < 100
        then [] else [ConfigIssue.badYellow]
      let iss5 ← rfChecks c c.supportedGases
      let iss6 := if c.autofillMins.isNonnegInt then []
        else [ConfigIssue.badAutofill]
      let warns6 := if c.autofillMins.isNonnegInt && c.autofillMins.gt20
        then [ConfigWarning.largeAutofill] else []
      Except.ok (iss1 ++ iss2 ++ iss3 ++ iss4 ++ iss5 ++ iss6,
        warns3 ++ warns6)) = _
    rw [hgrc, hrfc]
    rfl
  have hmm : mismatchB c =
      c.windows.any (fun w => !sameKeys (keyset w) (keyset w0)) := by
    unfold mismatchB
    rw [hcw]
  have hsv : subsetViolB c =
      !(c.supportedGases.all (fun g => (keyset w0).contains g)) := by
    unfold subsetViolB
    rw [hcw]
  have hiff : ∀ i iss warns, validateConfig c = .ok (iss, warns) →
      (i ∈ iss ↔ issueHolds c i) := by
    intro i iss warns h
    rw [hvc] at h
    have hpair := Except.ok.inj h
    obtain ⟨h1, h2⟩ := Prod.mk.inj hpair
    rw [← h1]
    cases i <;> simp [issueHolds, hmm, hsv, List.mem_filter]
  refine ⟨_, _, hvc, fun i => hiff i _ _ hvc, ?_⟩
  unfold validationFails
  rw [hvc]
  simp only [ne_eq]
  constructor
  · intro hne
    obtain ⟨i, hi⟩ := List.exists_mem_of_ne_nil _ hne
    exact ⟨i, (hiff i _ _ hvc).1 hi⟩
  · rintro ⟨i, hi⟩ hnil
    have := (hiff i _ _ hvc).2 hi
    rw [hnil] at this
    exact List.not_mem_nil i this

/-- A configuration with two simultaneous fatal violations — the supported
gas `carbon_monoxide` has no limit entry at all, and
`yellow_warning_percent = 150` — where validation nevertheless dies with a
bare `KeyError` at the limits lookup (line 106) before ever reaching the
yellow check or the final assertion. -/
def cfgC8bad : RawConfig :=
  { windows := [⟨[]⟩]
    supportedGases := ["carbon_monoxide"]
    yellowWarningPercent := 150
    safeRoundingFactors := [("carbon_monoxide", .int 1)]
    autofillMins := .int 0 }

/-- **C8 counterexample.**  On `cfgC8bad` the claim demands a fatal
configuration error whose message collects *every* fatal violation (the
missing limit and the invalid yellow percentage); the code instead raises a
`KeyError` naming only the gas, so the accumulated messages are discarded
and the yellow violation is never reported. -/
theorem c8_counterexample :
    validateConfig cfgC8bad = .error (.keyError "carbon_monoxide") ∧
    ¬(0 < cfgC8bad.yellowWarningPercent ∧
      cfgC8bad.yellowWarningPercent < 100) := by
  constructor
  · rfl
  · show ¬((0 : ℚ) < 150 ∧ (150 : ℚ) < 100)
    norm_num

/-- A lookup-crash-free configuration with two fatal violations: the
configured carbon-monoxide limit 2000 ppm exceeds the sensor's 1000 ppm
range, and `yellow_warning_percent = 150` is outside `(0, 100)`. -/
def cfgC8w : RawConfig :=
  { windows := [⟨[("carbon_monoxide", 2000)]⟩]
    supportedGases := ["carbon_monoxide"]
    yellowWarningPercent := 150
    safeRoundingFactors := [("carbon_monoxide", .int 1)]
    autofillMins := .int 0 }

/-- **C8 witness.**  The amended theorem applied to `cfgC8w`. -/
theorem c8_witness :
    ∃ iss warns, validateConfig cfgC8w = .ok (iss, warns) ∧
      (∀ i, i ∈ iss ↔ issueHolds cfgC8w i) ∧
      (validationFails cfgC8w ↔ ∃ i, issueHolds cfgC8w i) :=
  c8_validation_accumulates_iff cfgC8w (by decide) (by decide) (by decide)
    (by decide)
